import Mathlib

/-!
Verification of the snapblaster MIDI performance controller core.

The Rust source is shallowly embedded: machine integers (u8, u32, u64) are
modelled by Nat with explicit masking where the code masks, f32/f64 values by
ℚ where the code only does field arithmetic and casts, and by ℝ where the
code calls sqrt.  Stateful Rust structs become Lean structures with explicit
state passing; the background runner thread becomes a fuel-indexed loop
function over the engine state.
-/

namespace Snapblaster

/-- Transition curve kinds, as in src/midi/engine.rs and src/models/cc.rs. -/
inductive TransitionCurve
  | Linear
  | Exponential
  | Logarithmic
  | SCurve
deriving DecidableEq, Repr

/-- TransitionCurve::apply (engine.rs lines 58-72): maps a normalized
position in [0,1] to an eased position.  f64 is modelled by ℝ because the
Logarithmic arm calls sqrt. -/
noncomputable def TransitionCurve.apply : TransitionCurve → ℝ → ℝ
  | .Linear, position => position
  | .Exponential, position => position * position
  | .Logarithmic, position => Real.sqrt position
  | .SCurve, position => 3 * position * position - 2 * position * position * position

/-- CCValue (models/cc.rs): a single MIDI CC value with optional transition
information.  channel/cc_number/value are u8, transition_beats is Option f32
(modelled by ℚ), transition_ms is Option u32. -/
structure CCValue where
  channel : Nat
  cc_number : Nat
  value : Nat
  name : Option String := none
  transition : Bool := false
  transition_beats : Option ℚ := none
  transition_ms : Option Nat := none
  curve : TransitionCurve := .Linear
  description : Option String := none
deriving DecidableEq, Repr

/-- CCValue::new (cc.rs lines 58-70). -/
def CCValue.new (channel cc_number value : Nat) : CCValue :=
  { channel := channel, cc_number := cc_number, value := value }

/-- CCValue::get_transition_duration_ms (cc.rs lines 80-94).  Returns none
when transition is false; otherwise the code checks transition_ms FIRST and
only falls back to transition_beats (converted with the tempo) when
transition_ms is None.  The f64 arithmetic (60.0/tempo)*1000.0 then
beats * beat_duration_ms is exact field arithmetic, modelled by ℚ; the
`as u32` cast truncates toward zero and saturates at 0 for negative values,
modelled by Int.toNat of the floor. -/
def CCValue.get_transition_duration_ms (cc : CCValue) (tempo : ℚ) : Option Nat :=
  if cc.transition then
    match cc.transition_ms with
    | some ms => some ms
    | none =>
      match cc.transition_beats with
      | some beats => some (Int.toNat ⌊beats * ((60 / tempo) * 1000)⌋)
      | none => none
  else
    none

/-- A CCValue with both a beats duration and a milliseconds duration set,
reachable because the fields are public and serde-deserializable. -/
def ccBothSet : CCValue :=
  { channel := 0, cc_number := 7, value := 100, transition := true,
    transition_beats := some 2, transition_ms := some 500 }

/-- A CCValue with a beats duration only, as in the spec's end-to-end
scenario (channel 0, number 7, value 100, transition over 4 beats). -/
def ccBeatsOnly : CCValue :=
  { channel := 0, cc_number := 7, value := 100, transition := true,
    transition_beats := some 4 }

end Snapblaster

namespace Snapblaster

/-- C5: every curve maps 0 to 0 and 1 to 1; Exponential halves to 0.25,
S-Curve halves to 0.5; Linear is the identity, Exponential is squaring,
Logarithmic is the square root (with sqrt(0.5) within (0.7071, 0.7072)),
and S-Curve is the smoothstep 3p^2 - 2p^3. -/
theorem C5_curves :
    (∀ c : TransitionCurve, c.apply 0 = 0 ∧ c.apply 1 = 1) ∧
    TransitionCurve.Exponential.apply (1 / 2) = 1 / 4 ∧
    TransitionCurve.SCurve.apply (1 / 2) = 1 / 2 ∧
    (∀ p : ℝ, TransitionCurve.Linear.apply p = p) ∧
    (∀ p : ℝ, TransitionCurve.Exponential.apply p = p ^ 2) ∧
    (∀ p : ℝ, TransitionCurve.Logarithmic.apply p = Real.sqrt p) ∧
    (∀ p : ℝ, TransitionCurve.SCurve.apply p = 3 * p ^ 2 - 2 * p ^ 3) ∧
    (0.7071 < TransitionCurve.Logarithmic.apply (1 / 2) ∧
      TransitionCurve.Logarithmic.apply (1 / 2) < 0.7072) := by
  refine ⟨?_, ?_, ?_, ?_, ?_, ?_, ?_, ?_, ?_⟩
  · intro c
    cases c <;> constructor <;>
      norm_num [TransitionCurve.apply, Real.sqrt_zero, Real.sqrt_one]
  · norm_num [TransitionCurve.apply]
  · norm_num [TransitionCurve.apply]
  · intro p; rfl
  · intro p; simp [TransitionCurve.apply]; ring
  · intro p; rfl
  · intro p; simp [TransitionCurve.apply]; ring
  · show (0.7071 : ℝ) < Real.sqrt (1 / 2)
    rw [show (0.7071 : ℝ) = Real.sqrt (0.7071 ^ 2) by
      rw [Real.sqrt_sq (by norm_num)]]
    exact Real.sqrt_lt_sqrt (by norm_num) (by norm_num)
  · show Real.sqrt (1 / 2) < 0.7072
    rw [show (0.7072 : ℝ) = Real.sqrt (0.7072 ^ 2) by
      rw [Real.sqrt_sq (by norm_num)]]
    exact Real.sqrt_lt_sqrt (by norm_num) (by norm_num)

/-- C7: with transition=true, transition_beats=some b and transition_ms=none,
get_transition_duration_ms returns some of b * ((60/tempo) * 1000)
milliseconds truncated to an integer; with transition=false it returns none
for every tempo. -/
theorem C7_beats_duration :
    (∀ (cc : CCValue) (b tempo : ℚ),
      cc.transition = true → cc.transition_beats = some b →
      cc.transition_ms = none →
      cc.get_transition_duration_ms tempo =
        some (Int.toNat ⌊b * ((60 / tempo) * 1000)⌋)) ∧
    (∀ (cc : CCValue) (tempo : ℚ), cc.transition = false →
      cc.get_transition_duration_ms tempo = none) := by
  constructor
  · intro cc b tempo ht hb hm
    simp [CCValue.get_transition_duration_ms, ht, hb, hm]
  · intro cc tempo ht
    simp [CCValue.get_transition_duration_ms, ht]

/-- Witness for C7: the spec's end-to-end scenario, 4 beats at 120 BPM give
2000 ms, and a non-transition CCValue gives none. -/
theorem C7_witness :
    ccBeatsOnly.get_transition_duration_ms 120 = some 2000 ∧
    (CCValue.new 0 7 100).get_transition_duration_ms 120 = none := by
  constructor
  · have h := C7_beats_duration.1 ccBeatsOnly 4 120 rfl rfl rfl
    rw [h]
    norm_num
    rfl
  · exact C7_beats_duration.2 (CCValue.new 0 7 100) 120 rfl

/-- C3 fails on the code: with both durations set the code returns the
transition_ms value (500), not the beats-derived value (2 beats at 120 BPM
= 1000 ms), although the field documentation says transition_ms is only
used when transition_beats is None. -/
theorem C3_code_eval :
    ccBothSet.get_transition_duration_ms 120 = some 500 ∧
    Int.toNat ⌊(2 : ℚ) * ((60 / 120) * 1000)⌋ = 1000 ∧
    (500 : Nat) ≠ 1000 := by
  refine ⟨rfl, ?_, by decide⟩
  norm_num
  rfl

end Snapblaster

namespace Snapblaster

/-- Scene trigger modes (src-tauri models/scene.rs lines 7-16). -/
inductive TriggerMode
  | Immediate
  | NextBeat
  | Beats (n : Nat)
  | NextBar
deriving DecidableEq, Repr

/-- Insertion into the cc_values map, modelling HashMap::insert on an
association list: an existing binding for the key is replaced in place,
otherwise the binding is appended. -/
def insertA : List (String × CCValue) → String → CCValue → List (String × CCValue)
  | [], k, v => [(k, v)]
  | p :: t, k, v => if p.1 = k then (k, v) :: t else p :: insertA t k v

/-- Removal from the cc_values map, modelling HashMap::remove. -/
def eraseA : List (String × CCValue) → String → List (String × CCValue)
  | [], _ => []
  | p :: t, k => if p.1 = k then t else p :: eraseA t k

/-- Lookup in the cc_values map, modelling HashMap::get. -/
def lookupA : List (String × CCValue) → String → Option CCValue
  | [], _ => none
  | p :: t, k => if p.1 = k then some p.2 else lookupA t k

/-- Scene (src-tauri models/scene.rs lines 26-63).  The HashMap<String,
CCValue> cc_values field is modelled by an association list whose keys are
kept distinct (the HashMap representation invariant). -/
structure Scene where
  id : String
  name : String
  description : Option String := none
  trigger_mode : TriggerMode := .Immediate
  cc_values : List (String × CCValue) := []
  tags : List String := []
  active : Bool := false
  favorite : Bool := false
  grid_position : Option Nat := none
  color : Option (Nat × Nat × Nat) := none
deriving DecidableEq, Repr

/-- Scene::new (scene.rs lines 67-80). -/
def Scene.new (id name : String) : Scene :=
  { id := id, name := name }

/-- The key string built by add_cc / get_cc / remove_cc:
format("\x7b}:\x7b}", channel, cc_number). -/
def Scene.mkKey (channel cc_number : Nat) : String :=
  toString channel ++ ":" ++ toString cc_number

/-- Scene::add_cc (scene.rs lines 83-87): inserts under the key built from
the CC's own channel and number, replacing any existing binding. -/
def Scene.add_cc (s : Scene) (cc : CCValue) : Scene :=
  { s with cc_values := insertA s.cc_values (Scene.mkKey cc.channel cc.cc_number) cc }

/-- Scene::add_cc_values (scene.rs lines 90-95). -/
def Scene.add_cc_values (s : Scene) (l : List CCValue) : Scene :=
  l.foldl Scene.add_cc s

/-- Scene::get_cc (scene.rs lines 98-101), state-observation part. -/
def Scene.get_cc (s : Scene) (channel cc_number : Nat) : Option CCValue :=
  lookupA s.cc_values (Scene.mkKey channel cc_number)

/-- Scene::remove_cc (scene.rs lines 104-107), state-change part. -/
def Scene.remove_cc (s : Scene) (channel cc_number : Nat) : Scene :=
  { s with cc_values := eraseA s.cc_values (Scene.mkKey channel cc_number) }

/-- The predicate picking out map entries whose stored CCValue targets the
given (channel, cc_number) pair. -/
def sameTarget (channel cc_number : Nat) (p : String × CCValue) : Bool :=
  p.2.channel == channel && p.2.cc_number == cc_number

/-- Well-formedness of a scene's cc_values map: keys are distinct (the
HashMap invariant) and every binding sits under the key built from its own
CCValue's channel and number (every mutation of the map goes through
add_cc / remove_cc, which use exactly that key). -/
def SceneWF (s : Scene) : Prop :=
  (s.cc_values.map Prod.fst).Nodup ∧
  ∀ p ∈ s.cc_values, p.1 = Scene.mkKey p.2.channel p.2.cc_number

lemma mem_insertA {l : List (String × CCValue)} {k : String} {v : CCValue}
    {p : String × CCValue} (h : p ∈ insertA l k v) : p = (k, v) ∨ p ∈ l := by
  induction l with
  | nil =>
    simp [insertA] at h
    exact Or.inl h
  | cons q t ih =>
    rw [insertA] at h
    by_cases hq : q.1 = k
    · rw [if_pos hq] at h
      rcases List.mem_cons.mp h with h1 | h2
      · exact Or.inl h1
      · exact Or.inr (List.mem_cons_of_mem _ h2)
    · rw [if_neg hq] at h
      rcases List.mem_cons.mp h with h1 | h2
      · exact Or.inr (h1 ▸ List.mem_cons_self _ _)
      · rcases ih h2 with h3 | h4
        · exact Or.inl h3
        · exact Or.inr (List.mem_cons_of_mem _ h4)

lemma keys_insertA_sub {l : List (String × CCValue)} {k : String}
    {v : CCValue} {x : String} (hx : x ∈ (insertA l k v).map Prod.fst) :
    x = k ∨ x ∈ l.map Prod.fst := by
  rcases List.mem_map.mp hx with ⟨p, hp, rfl⟩
  rcases mem_insertA hp with h1 | h2
  · left; rw [h1]
  · right; exact List.mem_map_of_mem _ h2

lemma keys_insertA_nodup {l : List (String × CCValue)} {k : String}
    {v : CCValue} (h : (l.map Prod.fst).Nodup) :
    ((insertA l k v).map Prod.fst).Nodup := by
  induction l with
  | nil => simp [insertA]
  | cons q t ih =>
    rw [List.map_cons, List.nodup_cons] at h
    obtain ⟨hq, ht⟩ := h
    by_cases hqk : q.1 = k
    · rw [insertA, if_pos hqk, List.map_cons, List.nodup_cons]
      exact ⟨by rw [← hqk]; exact hq, ht⟩
    · rw [insertA, if_neg hqk, List.map_cons, List.nodup_cons]
      refine ⟨?_, ih ht⟩
      intro hmem
      rcases keys_insertA_sub hmem with h1 | h2
      · exact hqk h1
      · exact hq h2

lemma countP_insertA (cc : CCValue) :
    ∀ l : List (String × CCValue),
      (l.map Prod.fst).Nodup →
      (∀ p ∈ l, p.1 = Scene.mkKey p.2.channel p.2.cc_number) →
      (insertA l (Scene.mkKey cc.channel cc.cc_number) cc).countP
        (sameTarget cc.channel cc.cc_number) = 1 := by
  intro l
  induction l with
  | nil =>
    intro _ _
    simp [insertA, sameTarget]
  | cons q t ih =>
    intro hnd hcons
    rw [List.map_cons, List.nodup_cons] at hnd
    obtain ⟨hqnotin, htnd⟩ := hnd
    have hqkey := hcons q (List.mem_cons_self q t)
    by_cases hmatch : q.1 = Scene.mkKey cc.channel cc.cc_number
    · rw [insertA, if_pos hmatch, List.countP_cons]
      have h0 : t.countP (sameTarget cc.channel cc.cc_number) = 0 := by
        rw [List.countP_eq_zero]
        intro p hp hpred
        have h1 : p.2.channel = cc.channel ∧ p.2.cc_number = cc.cc_number := by
          simpa [sameTarget] using hpred
        have h2 : p.1 = Scene.mkKey cc.channel cc.cc_number := by
          rw [hcons p (List.mem_cons_of_mem _ hp), h1.1, h1.2]
        exact hqnotin ((hmatch.trans h2.symm) ▸ List.mem_map_of_mem Prod.fst hp)
      rw [h0]
      simp [sameTarget]
    · rw [insertA, if_neg hmatch, List.countP_cons]
      have hqfalse : sameTarget cc.channel cc.cc_number q = false := by
        by_contra hcon
        have htrue : sameTarget cc.channel cc.cc_number q = true := by
          cases hq2 : sameTarget cc.channel cc.cc_number q
          · exact absurd hq2 hcon
          · rfl
        have h1 : q.2.channel = cc.channel ∧ q.2.cc_number = cc.cc_number := by
          simpa [sameTarget] using htrue
        exact hmatch (by rw [hqkey, h1.1, h1.2])
      rw [hqfalse]
      simp only [if_neg Bool.false_ne_true, Nat.add_zero]
      exact ih htnd (fun p hp => hcons p (List.mem_cons_of_mem _ hp))

lemma cons_insertA (cc : CCValue) {l : List (String × CCValue)}
    (hcons : ∀ p ∈ l, p.1 = Scene.mkKey p.2.channel p.2.cc_number) :
    ∀ p ∈ insertA l (Scene.mkKey cc.channel cc.cc_number) cc,
      p.1 = Scene.mkKey p.2.channel p.2.cc_number := by
  intro p hp
  rcases mem_insertA hp with h1 | h2
  · rw [h1]
  · exact hcons p h2

lemma eraseA_sublist (l : List (String × CCValue)) (k : String) :
    (eraseA l k).Sublist l := by
  induction l with
  | nil => simp [eraseA]
  | cons q t ih =>
    rw [eraseA]
    by_cases hq : q.1 = k
    · rw [if_pos hq]
      exact List.Sublist.cons q (List.Sublist.refl t)
    · rw [if_neg hq]
      exact List.Sublist.cons₂ q ih

lemma lookupA_insertA (v : CCValue) :
    ∀ (l : List (String × CCValue)) (k : String),
      lookupA (insertA l k v) k = some v := by
  intro l
  induction l with
  | nil => intro k; simp [insertA, lookupA]
  | cons q t ih =>
    intro k
    rw [insertA]
    by_cases hq : q.1 = k
    · rw [if_pos hq]; simp [lookupA]
    · rw [if_neg hq, lookupA, if_neg hq]
      exact ih k

lemma sceneWF_add_cc {s : Scene} (h : SceneWF s) (cc : CCValue) :
    SceneWF (s.add_cc cc) :=
  ⟨keys_insertA_nodup h.1, cons_insertA cc h.2⟩

lemma sceneWF_add_cc_values {s : Scene} (h : SceneWF s) :
    ∀ l : List CCValue, SceneWF (s.add_cc_values l) := by
  intro l
  induction l generalizing s with
  | nil => exact h
  | cons c t ih => exact ih (sceneWF_add_cc h c)

lemma sceneWF_remove_cc {s : Scene} (h : SceneWF s) (channel cc_number : Nat) :
    SceneWF (s.remove_cc channel cc_number) := by
  constructor
  · exact h.1.sublist ((eraseA_sublist s.cc_values _).map Prod.fst)
  · intro p hp
    exact h.2 p ((eraseA_sublist s.cc_values _).subset hp)

/-- C9: after add_cc(cc) a well-formed scene holds exactly one entry whose
stored value targets (cc.channel, cc.cc_number), that entry is cc itself
(an existing entry for the pair is replaced, not duplicated), and the
at-most-one-per-pair well-formedness is preserved by add_cc, add_cc_values
and remove_cc. -/
theorem C9_scene_pair_uniqueness (s : Scene) (cc : CCValue) (h : SceneWF s) :
    (s.add_cc cc).cc_values.countP (sameTarget cc.channel cc.cc_number) = 1 ∧
    (s.add_cc cc).get_cc cc.channel cc.cc_number = some cc ∧
    SceneWF (s.add_cc cc) ∧
    (∀ l : List CCValue, SceneWF (s.add_cc_values l)) ∧
    (∀ channel cc_number : Nat, SceneWF (s.remove_cc channel cc_number)) :=
  ⟨countP_insertA cc s.cc_values h.1 h.2,
   lookupA_insertA cc s.cc_values (Scene.mkKey cc.channel cc.cc_number),
   sceneWF_add_cc h cc,
   sceneWF_add_cc_values h,
   fun c n => sceneWF_remove_cc h c n⟩

/-- Witness scene and CC for C9. -/
def sceneW : Scene := Scene.new "witness-scene" "Witness Scene"

def ccW : CCValue := CCValue.new 0 7 100

/-- Witness for C9 at a concrete empty scene and CCValue (0, 7, 100). -/
theorem C9_witness :
    SceneWF sceneW ∧
    (sceneW.add_cc ccW).cc_values.countP
      (sameTarget ccW.channel ccW.cc_number) = 1 ∧
    (sceneW.add_cc ccW).get_cc ccW.channel ccW.cc_number = some ccW := by
  have hwf : SceneWF sceneW := by
    constructor
    · exact List.nodup_nil
    · intro p hp
      simp [sceneW, Scene.new] at hp
  have h := C9_scene_pair_uniqueness sceneW ccW hwf
  exact ⟨hwf, h.1, h.2.1⟩

end Snapblaster

namespace Snapblaster

/-- Commands the MIDI engine accepts (engine.rs lines 13-47). -/
inductive MidiCommand
  | SendCC (channel cc_number value : Nat)
  | Transition (channel cc_number start_value end_value : Nat)
      (duration_ms : Nat) (curve : TransitionCurve)
  | ActivateScene (scene : Scene) (quantize_beats : Option Nat)
  | MorphScenes (start_scene end_scene : Scene) (duration_ms : Nat)
      (curve : TransitionCurve)
  | StopTransitions
  | SetTempo (bpm : ℚ)
  | Shutdown
deriving DecidableEq

/-- An in-flight transition (engine.rs lines 75-83); start_time and
duration are in milliseconds. -/
structure ActiveTransition where
  channel : Nat
  cc_number : Nat
  start_value : Nat
  end_value : Nat
  start_time : Nat
  duration : Nat
  curve : TransitionCurve
deriving DecidableEq

/-- A MIDI output connection, observationally: whether writes to it fail,
and the wire messages successfully written so far. -/
structure Connection where
  fails : Bool := false
  sent : List (List Nat) := []
deriving DecidableEq

/-- A single write attempt, modelling `let _ = connection.send(&msg)`
(engine.rs line 187): the result is discarded, so a failing connection is
left unchanged and no error escapes. -/
def sendOne (c : Connection) (msg : List Nat) : Connection :=
  if c.fails then c else { c with sent := c.sent ++ [msg] }

/-- The `for connection in &mut self.connections` loop of send_cc. -/
def sendAll : List Connection → List Nat → List Connection
  | [], _ => []
  | c :: rest, msg => sendOne c msg :: sendAll rest msg

/-- The state of MidiEngine (engine.rs lines 86-93).  The
Option<JoinHandle> thread_handle is observed only through is_some / take,
so it is modelled by the Boolean threadStarted. -/
structure MidiEngine where
  command_queue : List MidiCommand
  connections : List Connection
  transitions : List ActiveTransition
  tempo : ℚ
  running : Bool
  threadStarted : Bool
deriving DecidableEq

/-- MidiEngine::new (engine.rs lines 97-108). -/
def MidiEngine.new : MidiEngine :=
  { command_queue := [], connections := [], transitions := [],
    tempo := 120, running := true, threadStarted := false }

/-- MidiEngine::start (engine.rs lines 111-151): errors if the processing
thread was already started, otherwise records the spawned thread's handle
and returns Ok. -/
def MidiEngine.start (e : MidiEngine) : Except String Unit × MidiEngine :=
  if e.threadStarted then (Except.error "Engine already running", e)
  else (Except.ok (), { e with threadStarted := true })

/-- MidiEngine::send_command (engine.rs lines 175-179). -/
def MidiEngine.send_command (e : MidiEngine) (command : MidiCommand) : MidiEngine :=
  { e with command_queue := e.command_queue ++ [command] }

/-- MidiEngine::send_cc (engine.rs lines 182-189).  The status byte is
computed as 0xB0 + (channel & 0x0F); since channel & 0x0F < 16 the u8
addition cannot wrap.  The message is written to every connection with
each write's Result discarded. -/
def MidiEngine.send_cc (e : MidiEngine) (channel cc value : Nat) : MidiEngine :=
  { e with connections :=
      sendAll e.connections [0xB0 + (channel &&& 0x0F), cc, value] }

/-- MidiEngine::shutdown (engine.rs lines 192-205): clears the shared
running flag directly, then joins (and takes) the thread handle.  No
Shutdown command is enqueued and the command queue is not touched. -/
def MidiEngine.shutdown (e : MidiEngine) : MidiEngine :=
  { e with running := false, threadStarted := false }

/-- Processing of one dequeued command in the runner loop (engine.rs lines
128-135): the body is a placeholder ("Process command (implementation will
be expanded)"), so the dequeued command has no effect on the engine state:
nothing is sent and no transition is registered. -/
def processCommand (e : MidiEngine) (_command : MidiCommand) : MidiEngine := e

/-- The inner `for _ in 0..10` batch of the runner loop (engine.rs lines
127-139): pops up to `fuel` commands, applying processCommand to each. -/
def drainBatch : MidiEngine → Nat → MidiEngine
  | e, 0 => e
  | e, fuel + 1 =>
    match e.command_queue with
    | [] => e
    | command :: rest =>
      drainBatch (processCommand { e with command_queue := rest } command) fuel

/-- The runner loop of the spawned thread (engine.rs lines 119-147),
indexed by the number of `while *running` iterations still to observe: each
iteration checks the running flag, drains a batch of at most 10 commands,
and sleeps; once the flag is observed false the loop exits immediately. -/
def runLoop : MidiEngine → Nat → MidiEngine
  | e, 0 => e
  | e, n + 1 => if e.running then runLoop (drainBatch e 10) n else e

end Snapblaster

namespace Snapblaster

lemma sendAll_eq_map (l : List Connection) (msg : List Nat) :
    sendAll l msg = l.map (fun c => sendOne c msg) := by
  induction l with
  | nil => rfl
  | cons c t ih => rw [sendAll, List.map_cons, ih]

lemma statusByte_or (channel : Nat) :
    0xB0 + (channel &&& 0x0F) = 0xB0 ||| (channel &&& 0x0F) := by
  have h : channel &&& 15 < 16 := Nat.lt_succ_of_le Nat.and_le_right
  have key : ∀ k : Fin 16, 176 + (k : Nat) = 176 ||| (k : Nat) := by decide
  exact key ⟨channel &&& 15, h⟩

/-- C6: send_cc writes the 3-byte Control Change message whose status byte
is 0xB0 | (channel & 0x0F), followed by the controller number and the
value, identically to every open output connection; each connection's
outcome depends only on that connection, so a failing write neither escapes
nor affects the writes to the other connections, and the connection count
is unchanged. -/
theorem C6_send_cc_broadcast (e : MidiEngine) (channel cc value : Nat) :
    (e.send_cc channel cc value).connections =
      e.connections.map (fun c =>
        if c.fails then c
        else { c with sent :=
          c.sent ++ [[0xB0 ||| (channel &&& 0x0F), cc, value]] }) ∧
    (e.send_cc channel cc value).connections.length = e.connections.length := by
  have hmain : (e.send_cc channel cc value).connections =
      e.connections.map (fun c =>
        if c.fails then c
        else { c with sent :=
          c.sent ++ [[0xB0 ||| (channel &&& 0x0F), cc, value]] }) := by
    show sendAll e.connections [0xB0 + (channel &&& 0x0F), cc, value] = _
    rw [sendAll_eq_map, statusByte_or]
    rfl
  exact ⟨hmain, by rw [hmain, List.length_map]⟩

/-- C8: start errors (with the engine state unchanged) exactly when the
processing thread was already started, succeeds otherwise, and the second
of two consecutive starts always errors. -/
theorem C8_start_errors (e : MidiEngine) :
    (e.threadStarted = true →
      e.start = (Except.error "Engine already running", e)) ∧
    (e.threadStarted = false → (e.start).1 = Except.ok ()) ∧
    ((e.start).2.start.1 = Except.error "Engine already running") := by
  refine ⟨fun h => ?_, fun h => ?_, ?_⟩
  · simp [MidiEngine.start, h]
  · simp [MidiEngine.start, h]
  · by_cases h : e.threadStarted
    · simp [MidiEngine.start, h]
    · simp [MidiEngine.start, h]

/-- Witness for C8: the freshly created engine starts once with Ok, and the
second start returns the "Engine already running" error. -/
theorem C8_witness :
    MidiEngine.new.threadStarted = false ∧
    (MidiEngine.new.start).1 = Except.ok () ∧
    (MidiEngine.new.start).2.start.1 = Except.error "Engine already running" :=
  ⟨rfl, (C8_start_errors MidiEngine.new).2.1 rfl,
    (C8_start_errors MidiEngine.new).2.2⟩

end Snapblaster

namespace Snapblaster

/-- The CCValue of the spec's end-to-end activation scenario. -/
def ccC1 : CCValue :=
  { channel := 0, cc_number := 7, value := 100, transition := true,
    transition_beats := some 4, curve := .Linear }

/-- A scene holding exactly that one CCValue. -/
def sceneC1 : Scene := (Scene.new "scene-1" "Scene 1").add_cc ccC1

/-- A started engine with one open output connection whose queue holds the
ActivateScene command for that scene (as enqueued by
ProjectManager::activate_scene for an Immediate-trigger scene). -/
def engineC1 : MidiEngine :=
  { MidiEngine.new with
    command_queue := [MidiCommand.ActivateScene sceneC1 none],
    connections := [{ fails := false, sent := [] }],
    threadStarted := true }

/-- C1 fails on the code: the runner loop dequeues the ActivateScene
command for a scene holding one CCValue, yet registers no transition and
writes nothing to the open connection — the loop body is a placeholder, so
no CCValue produces a send or a transition. -/
theorem C1_code_eval :
    sceneC1.cc_values.length = 1 ∧
    (runLoop engineC1 1).command_queue = [] ∧
    (runLoop engineC1 1).transitions = [] ∧
    (runLoop engineC1 1).connections.map Connection.sent = [[]] :=
  ⟨rfl, rfl, rfl, rfl⟩

/-- An engine whose queue holds one command enqueued (via send_command)
before any shutdown request. -/
def engineC2 : MidiEngine :=
  MidiEngine.new.send_command (MidiCommand.SendCC 0 7 100)

/-- C2's counterexample: in the interleaving where shutdown's clearing of
the running flag is observed by the loop before the next iteration, the
loop reaches a fixed point (it has exited) with the command that was
enqueued before shutdown still sitting unprocessed in the queue — the
enqueued-before-shutdown command is never applied, so shutdown is not
cooperative through the queue. -/
theorem C2_counterexample :
    engineC2.command_queue = [MidiCommand.SendCC 0 7 100] ∧
    (engineC2.shutdown).running = false ∧
    runLoop engineC2.shutdown 1000 = engineC2.shutdown ∧
    (runLoop engineC2.shutdown 1000).command_queue =
      [MidiCommand.SendCC 0 7 100] ∧
    (runLoop engineC2.shutdown 1000).command_queue ≠ [] :=
  ⟨rfl, rfl, rfl, rfl, by decide⟩

/-- C2 amended: shutdown clears the running flag directly without enqueuing
any command (the queue is untouched), and once the runner loop observes the
cleared flag it exits immediately without applying any still-enqueued
command, so commands enqueued before shutdown but not yet dequeued are left
in the queue unapplied. -/
theorem C2_amended_shutdown (e : MidiEngine) (n : Nat) (h : e.running = false) :
    runLoop e n = e ∧
    (e.shutdown).command_queue = e.command_queue ∧
    (e.shutdown).running = false := by
  refine ⟨?_, rfl, rfl⟩
  cases n with
  | zero => rfl
  | succ m => simp [runLoop, h]

/-- Witness for C2's amended claim at the concrete stopped engine. -/
theorem C2_witness :
    runLoop engineC2.shutdown 5 = engineC2.shutdown ∧
    (engineC2.shutdown.shutdown).command_queue =
      engineC2.shutdown.command_queue ∧
    (engineC2.shutdown.shutdown).running = false :=
  C2_amended_shutdown engineC2.shutdown 5 rfl

end Snapblaster

namespace Snapblaster

/-- Bitwise NOT on a u64 value (valid for n < 2^64): !n = 2^64 - 1 - n. -/
def u64Not (n : Nat) : Nat := (2 ^ 64 - 1) - n

/-- The locally observable state of LinkIntegration (link/integration.rs):
the cached tempo field and the peer count reported by the Link session. -/
structure LinkIntegration where
  enabled : Bool
  tempo : ℚ
  num_peers : Nat

/-- LinkIntegration::set_tempo (integration.rs lines 73-83), effect on the
locally cached tempo field.  The Rust guard reads
`if !self.link.num_peers() > 0`, which parses as
`(!num_peers()) > 0` — bitwise NOT on the u64 peer count, then a
comparison — not as `!(num_peers() > 0)`. -/
def LinkIntegration.set_tempo (s : LinkIntegration) (tempo : ℚ) : LinkIntegration :=
  if u64Not s.num_peers > 0 then { s with tempo := tempo } else s

/-- C4 fails on the code: with one peer connected, set_tempo(140) still
overwrites the locally cached tempo field, because the guard's bitwise NOT
of the peer count (2^64 - 2) is positive; the claim (and the function's own
comment) say the field is unchanged when peers are connected. -/
theorem C4_code_eval :
    (LinkIntegration.set_tempo { enabled := false, tempo := 120, num_peers := 1 } 140).tempo
      = 140 ∧
    (0 : Nat) < 1 := by
  constructor
  · have hguard : u64Not 1 > 0 := by decide
    simp [LinkIntegration.set_tempo, hguard]
  · decide

end Snapblaster

namespace Snapblaster

namespace LaunchpadMk2

/-- LaunchpadMk2::map_grid_id (src-tauri midi/controller.rs lines 273-291):
linear app grid id 0-63 to the Launchpad's row/column note id (row and
column digits 1-8); ids ≥ 64 map to 0. -/
def map_grid_id (app_grid_id : Nat) : Nat :=
  if 64 ≤ app_grid_id then 0
  else (app_grid_id / 8 + 1) * 10 + (app_grid_id % 8 + 1)

/-- LaunchpadMk2::map_to_app_grid_id (controller.rs lines 293-306): note id
back to the linear app grid id, none when either digit is outside 1-8. -/
def map_to_app_grid_id (controller_id : Nat) : Option Nat :=
  let row := controller_id / 10
  let col := controller_id % 10
  if row < 1 || 8 < row || col < 1 || 8 < col then none
  else some ((row - 1) * 8 + (col - 1))

end LaunchpadMk2

namespace LaunchpadX

/-- LaunchpadX::map_grid_id (controller.rs lines 522-540), textually the
same mapping as the MK2's. -/
def map_grid_id (app_grid_id : Nat) : Nat :=
  if 64 ≤ app_grid_id then 0
  else (app_grid_id / 8 + 1) * 10 + (app_grid_id % 8 + 1)

/-- LaunchpadX::map_to_app_grid_id (controller.rs lines 542-555). -/
def map_to_app_grid_id (controller_id : Nat) : Option Nat :=
  let row := controller_id / 10
  let col := controller_id % 10
  if row < 1 || 8 < row || col < 1 || 8 < col then none
  else some ((row - 1) * 8 + (col - 1))

end LaunchpadX

set_option maxRecDepth 8000 in
/-- C10: for both supported controllers the grid-id mappings are mutually
inverse on 0-63, and any controller id whose row or column digit falls
outside 1-8 maps back to none. -/
theorem C10_grid_roundtrip :
    (∀ id : Fin 64,
      LaunchpadMk2.map_to_app_grid_id (LaunchpadMk2.map_grid_id id) = some id) ∧
    (∀ id : Fin 64,
      LaunchpadX.map_to_app_grid_id (LaunchpadX.map_grid_id id) = some id) ∧
    (∀ cid : Fin 256,
      (cid.val / 10 < 1 ∨ 8 < cid.val / 10 ∨ cid.val % 10 < 1 ∨ 8 < cid.val % 10) →
      LaunchpadMk2.map_to_app_grid_id cid = none) ∧
    (∀ cid : Fin 256,
      (cid.val / 10 < 1 ∨ 8 < cid.val / 10 ∨ cid.val % 10 < 1 ∨ 8 < cid.val % 10) →
      LaunchpadX.map_to_app_grid_id cid = none) := by
  refine ⟨by decide, by decide, by decide, by decide⟩

/-- Witness for C10: the round trip at app id 0 and the out-of-range
controller id 9 (row digit 0) for both controllers. -/
theorem C10_witness :
    LaunchpadMk2.map_to_app_grid_id (LaunchpadMk2.map_grid_id 0) = some 0 ∧
    LaunchpadMk2.map_to_app_grid_id 9 = none ∧
    LaunchpadX.map_to_app_grid_id 9 = none :=
  ⟨C10_grid_roundtrip.1 ⟨0, by decide⟩,
   C10_grid_roundtrip.2.2.1 ⟨9, by decide⟩ (by decide),
   C10_grid_roundtrip.2.2.2 ⟨9, by decide⟩ (by decide)⟩

end Snapblaster
